import Mathlib

set_option maxHeartbeats 1000000

/-! Verification development for a small Python HTTP/1.1 file server
(app.py).  Strings and byte sequences are modelled as lists of
characters; all functions are executable and kernel-reducible. -/

abbrev Str := List Char

def str (s : String) : Str := s.data

def crlf : Str := ['\r', '\n']

def lowerStr (s : Str) : Str := s.map Char.toLower

def upperStr (s : Str) : Str := s.map Char.toUpper

/-- Modelled from Python semantics: str.split(sep) for a single
character separator, as used by posixpath.normpath. -/
def splitChar (sep : Char) : Str → List Str
  | [] => [[]]
  | c :: rest =>
    let r := splitChar sep rest
    if c = sep then [] :: r
    else (c :: r.headD []) :: r.tail

def dotdot : Str := ['.', '.']

/-- Modelled from Python semantics: the component-processing loop of
posixpath.normpath (skip empty and dot components, resolve dotdot
lexically, never above the root of an absolute path). -/
def normComps (isAbs : Bool) : List Str → List Str → List Str
  | acc, [] => acc
  | acc, comp :: rest =>
    if comp = [] ∨ comp = ['.'] then normComps isAbs acc rest
    else if comp = dotdot then
      if (acc ≠ [] ∧ acc.getLast? = some dotdot) ∨ (¬ isAbs ∧ acc = []) then
        normComps isAbs (acc ++ [dotdot]) rest
      else if acc ≠ [] then normComps isAbs acc.dropLast rest
      else normComps isAbs acc rest
    else normComps isAbs (acc ++ [comp]) rest

/-- Modelled from Python semantics: os.path.normpath on POSIX paths,
as called by serve_file in app.py line 96. -/
def pyNormpath (p : Str) : Str :=
  if p = [] then ['.']
  else
    let isAbs := p.headD ' ' = '/'
    let dbl := p.take 2 = ['/', '/'] ∧ ¬ (p.take 3 = ['/', '/', '/'])
    let slashes : Str := if isAbs then (if dbl then ['/', '/'] else ['/']) else []
    let comps := normComps isAbs [] (splitChar '/' p)
    let res := slashes ++ List.intercalate ['/'] comps
    if res = [] then ['.'] else res

/-- Modelled from Python semantics: os.path.join of a base and one
further path, as called by serve_file in app.py line 96. -/
def pyJoin (a b : Str) : Str :=
  if b.headD ' ' = '/' then b
  else if a = [] ∨ a.getLast? = some '/' then a ++ b
  else a ++ ['/'] ++ b

/-- Modelled from Python semantics: the whitespace class used by
str.split() and str.lstrip() on ASCII input. -/
def isPyWs (c : Char) : Bool :=
  c = ' ' ∨ c = '\t' ∨ c = '\n' ∨ c = '\r' ∨ c = '\x0b' ∨ c = '\x0c'

/-- Header values as stored in the Header Map.  The Python code stores
strings (parsed header values) and one int (the derived content-length
added in Response.send, app.py line 76). -/
inductive HVal
  | ofNat (n : Nat)
  | ofStr (s : Str)
deriving DecidableEq, Inhabited

def natStr (n : Nat) : Str := (Nat.repr n).data

/-- Rendering of a header value by the f-string in app.py line 80. -/
def HVal.render : HVal → Str
  | .ofNat n => natStr n
  | .ofStr s => s

/-- Modelled from the spec: the Headers class of headers.py (imported
by app.py but not present under src/).  A case-insensitive multi-value
mapping from lowercase header name to the ordered list of values, with
names kept in the order in which they were first added. -/
structure Headers where
  entries : List (Str × List HVal)
deriving DecidableEq

def Headers.empty : Headers := ⟨[]⟩

/-- Modelled from the spec: add appends the value to the ordered list
for the lowercased name, creating the entry on first use. -/
def addToEntries (n : Str) (v : HVal) : List (Str × List HVal) → List (Str × List HVal)
  | [] => [(n, [v])]
  | (k, vs) :: rest =>
    if k = n then (k, vs ++ [v]) :: rest
    else (k, vs) :: addToEntries n v rest

def Headers.add (h : Headers) (name : Str) (v : HVal) : Headers :=
  ⟨addToEntries (lowerStr name) v h.entries⟩

/-- Modelled from the spec: case-insensitive lookup returning the last
added value for the name, or none. -/
def Headers.get (h : Headers) (name : Str) : Option HVal :=
  match h.entries.find? (fun e => decide (e.1 = lowerStr name)) with
  | none => none
  | some e => e.2.getLast?

/-- Modelled from the spec: iteration over a Headers object yields one
(name, value) pair per stored value, names in first-added order and
values for the same name adjacent (used by app.py line 79). -/
def Headers.pairs (h : Headers) : List (Str × HVal) :=
  h.entries.flatMap (fun e => e.2.map (fun v => (e.1, v)))

def Headers.ofList (l : List (Str × HVal)) : Headers :=
  l.foldl (fun h p => h.add p.1 p.2) Headers.empty

/-- The body source of a Response: either an open file (fstat succeeds
and reports the file size) or an in-memory byte buffer (fileno raises
OSError, size probed by seek-to-end and tell). -/
inductive Body
  | fileB (content : Str)
  | buffer (content : Str)
deriving DecidableEq

def Body.content : Body → Str
  | .fileB c => c
  | .buffer c => c

/-- The size probe of Response.send, app.py lines 67-73: os.fstat for
a file-backed body, seek-end plus tell for a buffer-backed body. -/
def Body.probeSize : Body → Nat
  | .fileB c => c.length
  | .buffer c => c.length

structure Response where
  status : Str
  headers : Headers
  body : Body
deriving DecidableEq

/-- Response.__init__, app.py lines 42-59: textual content is encoded
into a buffer and takes precedence over body; with neither, the body
is an empty buffer. -/
def Response.mk1 (status : Str) (headers : Option Headers) (body : Option Body)
    (content : Option Str) : Response :=
  { status := status
    headers := headers.getD Headers.empty
    body :=
      match content with
      | some c => Body.buffer c
      | none =>
        match body with
        | some b => b
        | none => Body.buffer [] }

def headerLines (h : Headers) : Str :=
  (h.pairs.map (fun p => p.1 ++ str ": " ++ p.2.render ++ crlf)).flatten

/-- The byte sequence written by Response.send, app.py lines 78-84:
status line, header lines, blank line, then the body only when the
content length is positive. -/
def emit (status : Str) (h : Headers) (n : Nat) (b : Body) : Str :=
  str "HTTP/1.1 " ++ status ++ crlf ++ headerLines h ++ crlf ++
    (if 0 < n then b.content else [])

/-- Headers after the derivation step of app.py lines 66-76: when no
content-length header is set, the probed size is added as a header,
but only when it is positive. -/
def derivedHeaders (r : Response) : Headers :=
  if 0 < r.body.probeSize then
    r.headers.add (str "content-length") (HVal.ofNat r.body.probeSize)
  else r.headers

/-- Response.send, app.py lines 61-84.  Returns the bytes written and
the headers of the response after sending; none models the TypeError
raised by the comparison on line 83 when an explicitly set
content-length value is a string. -/
def Response.send (r : Response) : Option (Str × Headers) :=
  match r.headers.get (str "content-length") with
  | some (.ofNat n) => some (emit r.status r.headers n r.body, r.headers)
  | some (.ofStr _) => none
  | none =>
    some (emit r.status (derivedHeaders r) r.body.probeSize r.body, derivedHeaders r)

def wireOf (r : Response) : Str :=
  match r.send with
  | some (w, _) => w
  | none => []

/-- The content length actually used by Response.send to decide body
transmission (explicit header value, or the probed body size). -/
def contentLengthUsed (r : Response) : Nat :=
  match r.headers.get (str "content-length") with
  | some (.ofNat n) => n
  | some (.ofStr _) => 0
  | none => r.body.probeSize

def mkContentResponse (status msg : Str) : Response :=
  Response.mk1 status none none (some msg)

/-- Modelled from Python semantics: mimetypes.guess_type restricted to
the extensions relevant here; every unknown extension maps to the
default of app.py lines 106-107, and none of the modelled extensions
carries a transfer encoding. -/
def guessContentType (p : Str) : Str :=
  if List.isSuffixOf (str ".html") p then str "text/html"
  else if List.isSuffixOf (str ".htm") p then str "text/html"
  else if List.isSuffixOf (str ".txt") p then str "text/plain"
  else if List.isSuffixOf (str ".css") p then str "text/css"
  else str "application/octet-stream"

/-- What opening a path yields: a regular readable file with the given
bytes, no entry at all (FileNotFoundError), or an entry whose open
raises some other OSError (a directory, an unreadable file). -/
inductive FsEntry
  | file (content : Str)
  | absent
  | openErr
abbrev FS := Str → FsEntry

/-- The resolved absolute path computed by serve_file, app.py lines
93-96: map the bare slash to /index.html, strip leading slashes, join
onto the server root and normalize. -/
def serveTarget (root path0 : Str) : Str :=
  let path := if path0 = str "/" then str "/index.html" else path0
  pyNormpath (pyJoin root (path.dropWhile (fun c => c = '/')))

/-- Modelled from the spec (for comparison with the code): a resolved
path escapes the root when it is neither the root itself nor strictly
inside the root directory. -/
def escapesRoot (root resolved : Str) : Bool :=
  !(resolved == root) && !(List.isPrefixOf (root ++ ['/']) resolved)

/-- serve_file, app.py lines 87-119: the bytes written to the socket,
or an error for an exception that escapes (open failing with anything
other than FileNotFoundError). -/
def serve_file (fs : FS) (root path : Str) : Except Unit Str :=
  let ap := serveTarget root path
  if !(List.isPrefixOf root ap) then
    .ok (wireOf (mkContentResponse (str "404 Not Found") (str "Not Found")))
  else
    match fs ap with
    | .absent => .ok (wireOf (mkContentResponse (str "404 Not Found") (str "Not Found")))
    | .openErr => .error ()
    | .file content =>
      let r0 : Response := ⟨str "200 OK", Headers.empty, Body.fileB content⟩
      let r : Response :=
        { r0 with headers := r0.headers.add (str "content-type") (HVal.ofStr (guessContentType ap)) }
      .ok (wireOf r)

/-- Modelled from the spec: the Line Reader of request.py (not present
under src/) splits on the first CRLF, returning the line and the rest
of the stream, or none when no CRLF is buffered before the stream
ends. -/
def splitCRLF : Str → Option (Str × Str)
  | [] => none
  | '\r' :: '\n' :: rest => some ([], rest)
  | c :: rest =>
    match splitCRLF rest with
    | none => none
    | some (l, r) => some (c :: l, r)

/-- Modelled from the spec: the lazy line sequence of the Line Reader,
terminating at a blank line (yielding the unconsumed remainder) or
when the source is exhausted.  Fuel bounds the recursion; each step
consumes at least two characters, so the fuel below suffices. -/
def readLinesF : Nat → Str → List Str × Str
  | 0, _ => ([], [])
  | fuel + 1, s =>
    match splitCRLF s with
    | none => ([], [])
    | some (line, rest) =>
      if line = [] then ([], rest)
      else
        let p := readLinesF fuel rest
        (line :: p.1, p.2)

def readLines (s : Str) : List Str × Str := readLinesF (s.length + 1) s

/-- Modelled from Python semantics: str.split() without an argument,
splitting on runs of whitespace and discarding empty pieces. -/
def wordsAux (acc : Str) : Str → List Str
  | [] => if acc = [] then [] else [acc.reverse]
  | c :: rest =>
    if isPyWs c then
      if acc = [] then wordsAux [] rest
      else acc.reverse :: wordsAux [] rest
    else wordsAux (c :: acc) rest

def pySplitWs (s : Str) : List Str := wordsAux [] s

/-- Modelled from the spec: splitting a header line on its first
colon; none when the line has no colon (a parse failure). -/
def breakColon : Str → Option (Str × Str)
  | [] => none
  | ':' :: rest => some ([], rest)
  | c :: rest =>
    match breakColon rest with
    | none => none
    | some (l, r) => some (c :: l, r)

/-- Modelled from the spec: a successfully parsed request with its
uppercased method, raw path, accumulated Header Map, and the bytes
already read past the blank line (the start of the body stream). -/
structure Request where
  method : Str
  path : Str
  headers : Headers
  rem : Str

/-- Modelled from the spec: header-section accumulation; each line
must contain a colon, the value has leading whitespace stripped, and
the pair is added to the Header Map. -/
def parseHeaderLines : List Str → Headers → Option Headers
  | [], h => some h
  | l :: rest, h =>
    match breakColon l with
    | none => none
    | some (n, v) => parseHeaderLines rest (h.add n (HVal.ofStr (v.dropWhile isPyWs)))

/-- Modelled from the spec: Request.from_socket of request.py (not
present under src/).  The first line must split into exactly three
whitespace-separated tokens; every following line up to the blank line
must contain a colon; any failure raises MalformedRequest, modelled as
an error value. -/
def fromSocket (raw : Str) : Except Unit Request :=
  let p := readLines raw
  match p.1 with
  | [] => .error ()
  | rl :: hls =>
    match pySplitWs rl with
    | [m, pa, _] =>
      match parseHeaderLines hls Headers.empty with
      | none => .error ()
      | some h => .ok ⟨upperStr m, pa, h, p.2⟩
    | _ => .error ()

/-- Modelled from Python semantics: the continuation of a decimal
digit part after its first digit, where a single underscore may occur
only between two digits (PEP 515). -/
def digitPartAux : Str → Bool
  | [] => true
  | '_' :: c :: rest => c.isDigit && digitPartAux rest
  | ['_'] => false
  | c :: rest => c.isDigit && digitPartAux rest

/-- Modelled from Python semantics: a valid decimal digit part for
int(), one or more digits with optional single underscores between
digits. -/
def isDigitPart : Str → Bool
  | [] => false
  | c :: rest => c.isDigit && digitPartAux rest

def digitsVal (ds : Str) : Nat :=
  ds.foldl (fun a c => a * 10 + (c.toNat - 48)) 0

/-- Modelled from Python semantics: int() applied to a string, with
surrounding whitespace, an optional sign, and underscore-separated
digits accepted per PEP 515; anything else raises ValueError,
modelled as none. -/
def pyInt (s : Str) : Option Int :=
  let t := ((s.dropWhile isPyWs).reverse.dropWhile isPyWs).reverse
  match t with
  | '-' :: ds =>
    if isDigitPart ds then some (-(digitsVal (ds.filter (fun c => decide (c ≠ '_'))) : Int))
    else none
  | '+' :: ds =>
    if isDigitPart ds then some (digitsVal (ds.filter (fun c => decide (c ≠ '_'))))
    else none
  | ds =>
    if isDigitPart ds then some (digitsVal (ds.filter (fun c => decide (c ≠ '_'))))
    else none

/-- Python substring membership, needle in haystack. -/
def containsSub (needle : Str) : Str → Bool
  | [] => needle.isEmpty
  | c :: rest => List.isPrefixOf needle (c :: rest) || containsSub needle rest

/-- request.headers.get("expect", "") in app.py line 182. -/
def expectValue (req : Request) : Str :=
  match req.headers.get (str "expect") with
  | some v => v.render
  | none => []

/-- The 100-continue test of app.py line 182. -/
def wants100 (req : Request) : Bool :=
  containsSub (str "100-continue") (expectValue req)

/-- request.headers.get("content-length", "0") in app.py line 187. -/
def clHeaderValue (req : Request) : Str :=
  match req.headers.get (str "content-length") with
  | some v => v.render
  | none => str "0"

/-- The content length computed by app.py lines 186-189: int() of the
header value, with a ValueError treated as zero. -/
def contentLen (req : Request) : Int :=
  match pyInt (clHeaderValue req) with
  | some i => i
  | none => 0

/-- Body bytes drained by app.py lines 191-193: a positive count reads
that many bytes (bounded by what the client sent), a negative count
reads everything, zero skips the read entirely. -/
def drainCount (req : Request) : Nat :=
  if 0 < contentLen req then min (contentLen req).toNat req.rem.length
  else if contentLen req < 0 then req.rem.length
  else 0

/-- The interim response written by app.py lines 182-184. -/
def interimWire (req : Request) : Str :=
  if wants100 req then wireOf (Response.mk1 (str "100 Continue") none none none)
  else []

/-- The response bytes produced by method dispatch and file serving,
app.py lines 195-206 (the part after the body drain). -/
def dispatchWire (fs : FS) (root : Str) (req : Request) : Str :=
  if req.method ≠ str "GET" then
    wireOf (mkContentResponse (str "405 Method Not Allowed") (str "Method Not Allowed"))
  else
    match serve_file fs root req.path with
    | .ok w => w
    | .error _ => wireOf (mkContentResponse (str "400 Bad Request") (str "Bad Request"))

/-- What one connection observes: the bytes written back to it and the
number of body bytes drained from it. -/
structure HandleOut where
  wire : Str
  drained : Nat
deriving DecidableEq

/-- The per-connection handling sequence of app.py lines 179-206: parse
the request (a failure is answered with 400), optionally write an
interim 100 Continue, drain the declared body, then either answer 405
for a non-GET method or serve the file, with any escaping exception
answered by the catch-all 400 handler. -/
def handle (fs : FS) (root : Str) (raw : Str) : HandleOut :=
  match fromSocket raw with
  | .error _ => ⟨wireOf (mkContentResponse (str "400 Bad Request") (str "Bad Request")), 0⟩
  | .ok req =>
    if req.method ≠ str "GET" then
      ⟨interimWire req ++
        wireOf (mkContentResponse (str "405 Method Not Allowed") (str "Method Not Allowed")),
        drainCount req⟩
    else
      match serve_file fs root req.path with
      | .ok w => ⟨interimWire req ++ w, drainCount req⟩
      | .error _ =>
        ⟨interimWire req ++
          wireOf (mkContentResponse (str "400 Bad Request") (str "Bad Request")),
          drainCount req⟩

/-- The lowercased names occurring in an add sequence, in order of
first occurrence. -/
def firstKeysAux (acc : List Str) : List (Str × HVal) → List Str
  | [] => acc
  | p :: rest =>
    firstKeysAux (if lowerStr p.1 ∈ acc then acc else acc ++ [lowerStr p.1]) rest

def firstKeys (l : List (Str × HVal)) : List Str := firstKeysAux [] l

/-- All values added under a given lowercased name, in add order. -/
def valsOf (k : Str) (l : List (Str × HVal)) : List HVal :=
  (l.filter (fun p => decide (lowerStr p.1 = k))).map Prod.snd

/-- Modelled from the spec (for comparison with the Header Map): the
iteration order the spec describes, names in first-added order with
the values of each name adjacent and in add order. -/
def specGrouped (l : List (Str × HVal)) : List (Str × HVal) :=
  (firstKeys l).flatMap (fun k => (valsOf k l).map (fun v => (k, v)))

theorem Headers.get_add (h : Headers) (n : Str) (v : HVal) :
    (h.add n v).get n = some v := by
  unfold Headers.add Headers.get
  induction h.entries with
  | nil => simp [addToEntries]
  | cons e t ih =>
    by_cases hk : e.1 = lowerStr n
    · simp [addToEntries, hk, List.find?, List.getLast?_concat]
    · simpa [addToEntries, hk, List.find?] using ih

theorem firstKeysAux_append (l : List (Str × HVal)) (p : Str × HVal) :
    ∀ acc, firstKeysAux acc (l ++ [p]) =
      (if lowerStr p.1 ∈ firstKeysAux acc l then firstKeysAux acc l
       else firstKeysAux acc l ++ [lowerStr p.1]) := by
  induction l with
  | nil => intro acc; simp [firstKeysAux]
  | cons q t ih => intro acc; simp only [List.cons_append, firstKeysAux]; exact ih _

theorem mem_firstKeysAux (x : Str) (l : List (Str × HVal)) :
    ∀ acc, x ∈ firstKeysAux acc l ↔ x ∈ acc ∨ ∃ p ∈ l, lowerStr p.1 = x := by
  induction l with
  | nil => intro acc; simp [firstKeysAux]
  | cons q t ih =>
    intro acc
    simp only [firstKeysAux, ih, List.mem_cons]
    by_cases hq : lowerStr q.1 ∈ acc
    · simp only [hq, if_true]
      constructor
      · rintro (h | ⟨p, hp, he⟩)
        · exact Or.inl h
        · exact Or.inr ⟨p, Or.inr hp, he⟩
      · rintro (h | ⟨p, (rfl | hp), he⟩)
        · exact Or.inl h
        · exact Or.inl (he ▸ hq)
        · exact Or.inr ⟨p, hp, he⟩
    · simp only [hq, if_false, List.mem_append, List.mem_singleton]
      constructor
      · rintro ((h | h) | ⟨p, hp, he⟩)
        · exact Or.inl h
        · exact Or.inr ⟨q, Or.inl rfl, h.symm⟩
        · exact Or.inr ⟨p, Or.inr hp, he⟩
      · rintro (h | ⟨p, (rfl | hp), he⟩)
        · exact Or.inl (Or.inl h)
        · exact Or.inl (Or.inr he.symm)
        · exact Or.inr ⟨p, hp, he⟩

theorem nodup_firstKeysAux (l : List (Str × HVal)) :
    ∀ acc, acc.Nodup → (firstKeysAux acc l).Nodup := by
  induction l with
  | nil => intro acc h; exact h
  | cons q t ih =>
    intro acc h
    simp only [firstKeysAux]
    by_cases hq : lowerStr q.1 ∈ acc
    · simpa [hq] using ih _ h
    · refine ih _ ?_
      simp only [hq, if_false]
      simp [List.nodup_append, h, hq]

theorem addToEntries_canonical (k : Str) (v : HVal) (g : Str → List HVal) :
    ∀ ks : List Str, ks.Nodup →
      addToEntries k v (ks.map (fun x => (x, g x))) =
        (if k ∈ ks then ks.map (fun x => (x, if x = k then g x ++ [v] else g x))
         else ks.map (fun x => (x, g x)) ++ [(k, [v])]) := by
  intro ks
  induction ks with
  | nil => intro _; simp [addToEntries]
  | cons a t ih =>
    intro hnd
    have hndt : t.Nodup := hnd.of_cons
    by_cases ha : a = k
    · subst ha
      have hat : a ∉ t := (List.nodup_cons.mp hnd).1
      simp only [List.map_cons, addToEntries, if_pos rfl, List.mem_cons, true_or, if_true]
      have : t.map (fun x => (x, if x = a then g x ++ [v] else g x)) =
          t.map (fun x => (x, g x)) := by
        apply List.map_congr_left
        intro x hx
        have : x ≠ a := fun he => hat (he ▸ hx)
        simp [this]
      simp [this]
    · simp only [List.map_cons, addToEntries, if_neg ha, ih hndt]
      by_cases hk : k ∈ t
      · simp [hk, ha, Ne.symm ha]
      · simp [hk, ha, Ne.symm ha]

theorem valsOf_append_single (x : Str) (t : List (Str × HVal)) (p : Str × HVal) :
    valsOf x (t ++ [p]) =
      valsOf x t ++ (if lowerStr p.1 = x then [p.2] else []) := by
  unfold valsOf
  rw [List.filter_append]
  by_cases hp : lowerStr p.1 = x
  · simp [hp]
  · simp [hp]

theorem entries_ofList (l : List (Str × HVal)) :
    (Headers.ofList l).entries = (firstKeys l).map (fun k => (k, valsOf k l)) := by
  induction l using List.reverseRecOn with
  | nil => rfl
  | append_singleton t p ih =>
    have hofl : Headers.ofList (t ++ [p]) = (Headers.ofList t).add p.1 p.2 := by
      simp [Headers.ofList, List.foldl_append]
    have hnd : (firstKeys t).Nodup := nodup_firstKeysAux t [] List.nodup_nil
    rw [hofl]
    show addToEntries (lowerStr p.1) p.2 (Headers.ofList t).entries = _
    rw [ih]
    rw [addToEntries_canonical (lowerStr p.1) p.2 (fun k => valsOf k t) (firstKeys t) hnd]
    have hfk : firstKeys (t ++ [p]) =
        (if lowerStr p.1 ∈ firstKeys t then firstKeys t
         else firstKeys t ++ [lowerStr p.1]) := firstKeysAux_append t p []
    by_cases hm : lowerStr p.1 ∈ firstKeys t
    · rw [hfk]
      simp only [hm, if_true]
      apply List.map_congr_left
      intro x _
      rw [valsOf_append_single]
      by_cases hx : x = lowerStr p.1
      · simp [hx]
      · simp [hx, Ne.symm hx]
    · rw [hfk]
      simp only [hm, if_false, List.map_append, List.map_cons, List.map_nil]
      have hvk : valsOf (lowerStr p.1) t = [] := by
        unfold valsOf
        have : t.filter (fun q => decide (lowerStr q.1 = lowerStr p.1)) = [] := by
          rw [List.filter_eq_nil_iff]
          intro q hq
          simp only [decide_eq_true_eq]
          intro he
          exact hm ((mem_firstKeysAux (lowerStr p.1) t []).mpr
            (Or.inr ⟨q, hq, he⟩))
        rw [this]; rfl
      congr 1
      · apply List.map_congr_left
        intro x hx
        rw [valsOf_append_single]
        have hxk : ¬ lowerStr p.1 = x := fun he => hm (he ▸ hx)
        simp [hxk]
      · rw [valsOf_append_single, hvk]
        simp

theorem pairs_ofList (l : List (Str × HVal)) :
    (Headers.ofList l).pairs = specGrouped l := by
  unfold Headers.pairs specGrouped
  rw [entries_ofList, List.flatMap_map]

/-- C1 counterexample: for root /srv/www the request path /../www2/secret
resolves to /srv/www2/secret, which escapes the root directory, yet
serve_file passes its prefix guard and serves the file contents with a
200 instead of a 404. -/
theorem C1_counterexample :
    escapesRoot (str "/srv/www") (serveTarget (str "/srv/www") (str "/../www2/secret")) = true
    ∧ serve_file
        (fun p => if p = str "/srv/www2/secret" then FsEntry.file (str "TOPSECRET")
                  else FsEntry.absent)
        (str "/srv/www") (str "/../www2/secret")
      = Except.ok
          (str "HTTP/1.1 200 OK\r\ncontent-type: application/octet-stream\r\ncontent-length: 9\r\n\r\nTOPSECRET") := by
  constructor
  · decide
  · rfl

/-- C1 (amended): whenever the normalized resolved path fails the
string-prefix check against the root, serve_file answers 404 with no
file contents and without touching the file system; in particular
/../../etc/passwd is rejected this way for any file system. -/
theorem C1_traversal_guard (fs : FS) (root path : Str)
    (h : List.isPrefixOf root (serveTarget root path) = false) :
    serve_file fs root path =
      Except.ok (str "HTTP/1.1 404 Not Found\r\ncontent-length: 9\r\n\r\nNot Found")
    ∧ ∀ fs2 : FS, serve_file fs2 (str "/home/user/www") (str "/../../etc/passwd") =
      Except.ok (str "HTTP/1.1 404 Not Found\r\ncontent-length: 9\r\n\r\nNot Found") := by
  constructor
  · simp only [serve_file, h, Bool.not_false, if_true]
    rfl
  · intro fs2
    have h2 : List.isPrefixOf (str "/home/user/www")
        (serveTarget (str "/home/user/www") (str "/../../etc/passwd")) = false := by decide
    simp only [serve_file, h2, Bool.not_false, if_true]
    rfl

/-- C1 witness: even with every path mapped to an existing file, the
passwd traversal request is answered with the 404 wire. -/
theorem C1_traversal_guard_witness :
    serve_file (fun _ => FsEntry.file (str "root:x:0:0")) (str "/home/user/www")
        (str "/../../etc/passwd") =
      Except.ok (str "HTTP/1.1 404 Not Found\r\ncontent-length: 9\r\n\r\nNot Found") :=
  (C1_traversal_guard (fun _ => FsEntry.file (str "root:x:0:0")) (str "/home/user/www")
    (str "/../../etc/passwd") (by decide)).1

/-- C2: Response.send trusts an explicitly set numeric content-length:
whatever the body is, the wire is emitted with the explicit value and
the headers are returned untouched (no size is derived).  Without the
header, send derives the length from the body source: it equals the
fstat file size for a file-backed body and the buffer byte length for
a buffer-backed body, and it is recorded in the content-length header
of the sent response. -/
theorem C2_content_length_negotiation (r : Response) :
    (∀ n b, r.headers.get (str "content-length") = some (HVal.ofNat n) →
       Response.send ⟨r.status, r.headers, b⟩ =
         some (emit r.status r.headers n b, r.headers))
    ∧ (r.headers.get (str "content-length") = none →
       r.send = some (emit r.status (derivedHeaders r) r.body.probeSize r.body,
         derivedHeaders r)
       ∧ (0 < r.body.probeSize →
            (derivedHeaders r).get (str "content-length") =
              some (HVal.ofNat r.body.probeSize))
       ∧ (∀ c, r.body = Body.fileB c → r.body.probeSize = c.length)
       ∧ (∀ c, r.body = Body.buffer c → r.body.probeSize = c.length)) := by
  constructor
  · intro n b h
    simp [Response.send, h]
  · intro h
    refine ⟨by simp [Response.send, h], ?_, ?_, ?_⟩
    · intro hpos
      unfold derivedHeaders
      rw [if_pos hpos]
      exact Headers.get_add r.headers (str "content-length") (HVal.ofNat r.body.probeSize)
    · intro c hc; rw [hc]; rfl
    · intro c hc; rw [hc]; rfl

/-- C2 witness: an explicit content-length of 5 is used as-is, and for
a file body of three bytes without the header the derived value 3 is
recorded. -/
theorem C2_content_length_negotiation_witness :
    Response.send ⟨str "200 OK",
        Headers.empty.add (str "content-length") (HVal.ofNat 5),
        Body.buffer (str "hello")⟩ =
      some (emit (str "200 OK")
          (Headers.empty.add (str "content-length") (HVal.ofNat 5)) 5
          (Body.buffer (str "hello")),
        Headers.empty.add (str "content-length") (HVal.ofNat 5))
    ∧ (derivedHeaders ⟨str "200 OK", Headers.empty, Body.fileB (str "abc")⟩).get
        (str "content-length") = some (HVal.ofNat 3) := by
  constructor
  · exact (C2_content_length_negotiation
      ⟨str "200 OK", Headers.empty.add (str "content-length") (HVal.ofNat 5),
        Body.buffer (str "hello")⟩).1 5 (Body.buffer (str "hello")) (by decide)
  · exact (C2_content_length_negotiation
      ⟨str "200 OK", Headers.empty, Body.fileB (str "abc")⟩).2 (by decide) |>.2.1 (by decide)

/-- C3: when the declared or computed content-length is zero, the sent
bytes end at the blank CRLF line no matter what body object the
Response holds; in particular a Response built with no explicit
content-length and an empty buffer body emits only its status line
followed by the blank line, with no content-length header and no
trailing bytes. -/
theorem C3_zero_length_no_body (r : Response) (w : Str) (hs : Headers)
    (h0 : contentLengthUsed r = 0) (hsend : r.send = some (w, hs)) :
    w = str "HTTP/1.1 " ++ r.status ++ crlf ++ headerLines hs ++ crlf
    ∧ ∀ s : Str, (Response.mk1 s none none none).send =
        some (str "HTTP/1.1 " ++ s ++ crlf ++ crlf, Headers.empty) := by
  constructor
  · cases hget : r.headers.get (str "content-length") with
    | none =>
      rw [contentLengthUsed, hget] at h0
      simp only [] at h0
      rw [Response.send, hget] at hsend
      simp only [Option.some.injEq, Prod.mk.injEq] at hsend
      rw [← hsend.1, ← hsend.2, emit]
      simp [h0]
    | some v =>
      cases v with
      | ofNat n =>
        rw [contentLengthUsed, hget] at h0
        simp only [] at h0
        rw [Response.send, hget] at hsend
        simp only [Option.some.injEq, Prod.mk.injEq] at hsend
        rw [← hsend.1, ← hsend.2, emit]
        simp [h0]
      | ofStr s =>
        rw [Response.send, hget] at hsend
        exact absurd hsend (by simp)
  · intro s
    show Response.send ⟨s, Headers.empty, Body.buffer []⟩ = _
    simp [Response.send, Headers.get, Headers.empty, derivedHeaders, Body.probeSize,
      emit, headerLines, Headers.pairs]

/-- C3 witness: a 200 response with an explicitly declared zero
content-length and a nonempty buffer body still emits nothing after
the blank line. -/
theorem C3_zero_length_no_body_witness :
    (str "HTTP/1.1 200 OK\r\ncontent-length: 0\r\n\r\n" : Str) =
      str "HTTP/1.1 " ++ str "200 OK" ++ crlf ++
        headerLines (Headers.empty.add (str "content-length") (HVal.ofNat 0)) ++ crlf :=
  (C3_zero_length_no_body
    ⟨str "200 OK", Headers.empty.add (str "content-length") (HVal.ofNat 0),
      Body.buffer (str "XYZ")⟩
    (str "HTTP/1.1 200 OK\r\ncontent-length: 0\r\n\r\n")
    (Headers.empty.add (str "content-length") (HVal.ofNat 0))
    (by decide) (by rfl)).1

/-- C4: the sent bytes are exactly the status line prefixed with
HTTP/1.1 and ended by CRLF, then one Name: value CRLF line per header
value in the iteration order of the sent headers, then a blank CRLF
line, then the full body content exactly when the used content-length
is positive; and the Header Map iterates names in first-added order
with the values of a name adjacent and in add order. -/
theorem C4_send_serialization (r : Response) (w : Str) (hs : Headers)
    (hsend : r.send = some (w, hs)) :
    w = str "HTTP/1.1 " ++ r.status ++ crlf
        ++ (hs.pairs.map (fun p => p.1 ++ str ": " ++ p.2.render ++ crlf)).flatten
        ++ crlf
        ++ (if 0 < contentLengthUsed r then r.body.content else [])
    ∧ ∀ l : List (Str × HVal), (Headers.ofList l).pairs = specGrouped l := by
  constructor
  · cases hget : r.headers.get (str "content-length") with
    | none =>
      rw [Response.send, hget] at hsend
      simp only [Option.some.injEq, Prod.mk.injEq] at hsend
      rw [← hsend.1, ← hsend.2, contentLengthUsed, hget]
      simp [emit, headerLines]
    | some v =>
      cases v with
      | ofNat n =>
        rw [Response.send, hget] at hsend
        simp only [Option.some.injEq, Prod.mk.injEq] at hsend
        rw [← hsend.1, ← hsend.2, contentLengthUsed, hget]
        simp [emit, headerLines]
      | ofStr s =>
        rw [Response.send, hget] at hsend
        exact absurd hsend (by simp)
  · exact pairs_ofList

/-- C4 witness: the serialization equation instantiated at the
concrete 404 response of serve_file. -/
theorem C4_send_serialization_witness :
    (str "HTTP/1.1 404 Not Found\r\ncontent-length: 9\r\n\r\nNot Found" : Str) =
      str "HTTP/1.1 " ++ str "404 Not Found" ++ crlf
        ++ (((Headers.empty.add (str "content-length") (HVal.ofNat 9)).pairs.map
              (fun p => p.1 ++ str ": " ++ p.2.render ++ crlf)).flatten)
        ++ crlf
        ++ (if 0 < contentLengthUsed (mkContentResponse (str "404 Not Found") (str "Not Found"))
            then (mkContentResponse (str "404 Not Found") (str "Not Found")).body.content
            else []) :=
  (C4_send_serialization (mkContentResponse (str "404 Not Found") (str "Not Found"))
    (str "HTTP/1.1 404 Not Found\r\ncontent-length: 9\r\n\r\nNot Found")
    (Headers.empty.add (str "content-length") (HVal.ofNat 9)) (by rfl)).1

/-- C5: a connection whose request fails to parse is answered with
exactly the 400 Bad Request wire and nothing is drained; the outcome
is the same for every file system and root, so no file serving is
attempted. -/
theorem C5_parse_failure_400 (raw : Str) (h : fromSocket raw = Except.error ())
    (fs fs2 : FS) (root root2 : Str) :
    handle fs root raw =
      ⟨str "HTTP/1.1 400 Bad Request\r\ncontent-length: 11\r\n\r\nBad Request", 0⟩
    ∧ handle fs root raw = handle fs2 root2 raw := by
  have hh : ∀ (g : FS) (rt : Str), handle g rt raw =
      ⟨str "HTTP/1.1 400 Bad Request\r\ncontent-length: 11\r\n\r\nBad Request", 0⟩ := by
    intro g rt
    simp only [handle, h]
    rfl
  exact ⟨hh fs root, (hh fs root).trans (hh fs2 root2).symm⟩

/-- C5 witness: a request line with only two tokens is malformed and
gets the 400 wire. -/
theorem C5_parse_failure_400_witness :
    handle (fun _ => FsEntry.file (str "x")) (str "/srv/www") (str "GET /\r\n\r\n") =
      ⟨str "HTTP/1.1 400 Bad Request\r\ncontent-length: 11\r\n\r\nBad Request", 0⟩ :=
  (C5_parse_failure_400 (str "GET /\r\n\r\n") (by rfl)
    (fun _ => FsEntry.file (str "x")) (fun _ => FsEntry.absent)
    (str "/srv/www") (str "/srv/www")).1

/-- C6: a parsed request whose method is not GET is answered with one
405 Method Not Allowed wire (after the optional interim response) and
the outcome is the same for every file system and root, so no file
system access happens for the request. -/
theorem C6_method_not_allowed (raw : Str) (req : Request)
    (h : fromSocket raw = Except.ok req) (hm : req.method ≠ str "GET")
    (fs fs2 : FS) (root root2 : Str) :
    (handle fs root raw).wire = interimWire req ++
      str "HTTP/1.1 405 Method Not Allowed\r\ncontent-length: 18\r\n\r\nMethod Not Allowed"
    ∧ handle fs root raw = handle fs2 root2 raw := by
  have hh : ∀ (g : FS) (rt : Str), handle g rt raw =
      ⟨interimWire req ++
        str "HTTP/1.1 405 Method Not Allowed\r\ncontent-length: 18\r\n\r\nMethod Not Allowed",
        drainCount req⟩ := by
    intro g rt
    simp only [handle, h]
    rw [if_pos hm]
    rfl
  exact ⟨by rw [hh fs root], (hh fs root).trans (hh fs2 root2).symm⟩

/-- C6 witness: a POST request is answered with exactly the 405 wire. -/
theorem C6_method_not_allowed_witness :
    (handle (fun _ => FsEntry.file (str "x")) (str "/srv/www")
        (str "POST /index.html HTTP/1.1\r\n\r\n")).wire =
      str "HTTP/1.1 405 Method Not Allowed\r\ncontent-length: 18\r\n\r\nMethod Not Allowed" :=
  (C6_method_not_allowed (str "POST /index.html HTTP/1.1\r\n\r\n")
    ⟨str "POST", str "/index.html", Headers.empty, []⟩ (by rfl) (by decide)
    (fun _ => FsEntry.file (str "x")) (fun _ => FsEntry.absent)
    (str "/srv/www") (str "/other")).1

/-- C8: for every parsed request the bytes written are the interim
100 Continue wire followed by the dispatch output exactly when the
headers declare Expect: 100-continue, and just the dispatch output
(no interim bytes) otherwise; the interim wire comes first, before
any body drain output or dispatch result. -/
theorem C8_expect_continue (fs : FS) (root raw : Str) (req : Request)
    (h : fromSocket raw = Except.ok req) :
    (handle fs root raw).wire =
      (if wants100 req then str "HTTP/1.1 100 Continue\r\n\r\n" else []) ++
        dispatchWire fs root req := by
  have hiw : interimWire req =
      (if wants100 req then str "HTTP/1.1 100 Continue\r\n\r\n" else []) := by
    rw [interimWire]
    by_cases hw : wants100 req
    · rw [if_pos hw, if_pos hw]
      rfl
    · rw [if_neg hw, if_neg hw]
  have hmain : (handle fs root raw).wire = interimWire req ++ dispatchWire fs root req := by
    simp only [handle, h, dispatchWire]
    by_cases hm : req.method ≠ str "GET"
    · rw [if_pos hm, if_pos hm]
    · rw [if_neg hm, if_neg hm]
      cases serve_file fs root req.path <;> rfl
  rw [hmain, hiw]

/-- C8 witness: a GET with Expect: 100-continue gets the interim wire
before the dispatch output. -/
theorem C8_expect_continue_witness :
    (handle (fun _ => FsEntry.absent) (str "/srv/www")
        (str "GET /nope HTTP/1.1\r\nExpect: 100-continue\r\n\r\n")).wire =
      (if wants100 ⟨str "GET", str "/nope",
            ⟨[(str "expect", [HVal.ofStr (str "100-continue")])]⟩, []⟩
       then str "HTTP/1.1 100 Continue\r\n\r\n" else []) ++
        dispatchWire (fun _ => FsEntry.absent) (str "/srv/www")
          ⟨str "GET", str "/nope", ⟨[(str "expect", [HVal.ofStr (str "100-continue")])]⟩, []⟩ :=
  C8_expect_continue (fun _ => FsEntry.absent) (str "/srv/www")
    (str "GET /nope HTTP/1.1\r\nExpect: 100-continue\r\n\r\n")
    ⟨str "GET", str "/nope", ⟨[(str "expect", [HVal.ofStr (str "100-continue")])]⟩, []⟩
    (by rfl)

theorem headerLines_two (k1 k2 : Str) (v1 v2 : HVal) :
    headerLines ⟨[(k1, [v1]), (k2, [v2])]⟩ =
      k1 ++ str ": " ++ v1.render ++ crlf ++ (k2 ++ str ": " ++ v2.render ++ crlf) := by
  simp [headerLines, Headers.pairs, List.flatMap, List.append_assoc]

/-- C9 counterexample: when www/index.html exists but is empty, the
response to GET / is a 200 whose wire carries no content-length header
at all, so the header does not equal the file size 0. -/
theorem C9_counterexample :
    serve_file (fun p => if p = str "/srv/www/index.html" then FsEntry.file []
                         else FsEntry.absent)
        (str "/srv/www") (str "/") =
      Except.ok (str "HTTP/1.1 200 OK\r\ncontent-type: text/html\r\n\r\n")
    ∧ containsSub (str "content-length")
        (str "HTTP/1.1 200 OK\r\ncontent-type: text/html\r\n\r\n") = false := by
  constructor
  · rfl
  · decide

/-- C9 (amended): a GET for the bare slash is resolved to index.html
under the root; a nonempty file is served with status 200, a
content-length header equal to its exact byte size, and the file
bytes as the body; an empty file is served with status 200, no
content-length header, and no body bytes. -/
theorem C9_root_index (content : Str) :
    serve_file (fun p => if p = str "/srv/www/index.html" then FsEntry.file content
                         else FsEntry.absent)
        (str "/srv/www") (str "/") =
      Except.ok
        (str "HTTP/1.1 200 OK\r\ncontent-type: text/html\r\n" ++
          (if 0 < content.length
           then str "content-length: " ++ natStr content.length ++ crlf
           else []) ++ crlf ++ content) := by
  have ht : serveTarget (str "/srv/www") (str "/") = str "/srv/www/index.html" := by decide
  have h1 : serve_file
      (fun p => if p = str "/srv/www/index.html" then FsEntry.file content
                else FsEntry.absent)
      (str "/srv/www") (str "/") =
      Except.ok (wireOf ⟨str "200 OK",
        Headers.empty.add (str "content-type") (HVal.ofStr (str "text/html")),
        Body.fileB content⟩) := by
    simp only [serve_file, ht]
    rfl
  rw [h1]
  by_cases hl : 0 < content.length
  · have h2 : wireOf ⟨str "200 OK",
        Headers.empty.add (str "content-type") (HVal.ofStr (str "text/html")),
        Body.fileB content⟩ =
        emit (str "200 OK")
          (derivedHeaders ⟨str "200 OK",
            Headers.empty.add (str "content-type") (HVal.ofStr (str "text/html")),
            Body.fileB content⟩)
          content.length (Body.fileB content) := rfl
    have hent : (Headers.empty.add (str "content-type")
          (HVal.ofStr (str "text/html"))).add (str "content-length")
          (HVal.ofNat (List.length content)) =
        ⟨[(str "content-type", [HVal.ofStr (str "text/html")]),
          (str "content-length", [HVal.ofNat (List.length content)])]⟩ := rfl
    rw [h2, derivedHeaders, emit]
    simp only [Body.probeSize]
    rw [if_pos hl, if_pos hl, if_pos hl]
    rw [hent, headerLines_two]
    rfl
  · have hc : content = [] := List.length_eq_zero.mp (Nat.eq_zero_of_not_pos hl)
    subst hc
    rfl

/-- C10: an exception escaping serve_file on a GET request (any open
failure other than FileNotFoundError, such as a directory or an
unreadable file) is caught by the catch-all handler and answered with
the 400 Bad Request wire, not a 404 or 500; parse failures reach the
same catch-all and the same 400 wire. -/
theorem C10_catch_all_400 (fs : FS) (root raw : Str) (req : Request)
    (h : fromSocket raw = Except.ok req) (hm : req.method = str "GET")
    (he : serve_file fs root req.path = Except.error ()) :
    (handle fs root raw).wire = interimWire req ++
      str "HTTP/1.1 400 Bad Request\r\ncontent-length: 11\r\n\r\nBad Request"
    ∧ ∀ raw2 : Str, fromSocket raw2 = Except.error () →
        (handle fs root raw2).wire =
          str "HTTP/1.1 400 Bad Request\r\ncontent-length: 11\r\n\r\nBad Request" := by
  constructor
  · simp only [handle, h]
    rw [if_neg (not_not_intro hm), he]
    rfl
  · intro raw2 h2
    simp only [handle, h2]
    rfl

/-- C10 witness: a GET whose target path names a directory (open
raises IsADirectoryError) is answered with the 400 wire. -/
theorem C10_catch_all_400_witness :
    (handle (fun _ => FsEntry.openErr) (str "/srv/www")
        (str "GET /d HTTP/1.1\r\n\r\n")).wire =
      str "HTTP/1.1 400 Bad Request\r\ncontent-length: 11\r\n\r\nBad Request" :=
  (C10_catch_all_400 (fun _ => FsEntry.openErr) (str "/srv/www")
    (str "GET /d HTTP/1.1\r\n\r\n")
    ⟨str "GET", str "/d", Headers.empty, []⟩ (by rfl) (by rfl) (by rfl)).1
